import Mathlib

/-!
Shallow embedding of `crates/bevy_render/src/view/visibility/render_groups.rs`.

Machine integers are modelled as `Nat`:
* `usize` layer indices are arbitrary naturals (the Rust type is unsigned and
  the code enforces no upper bound);
* the `u64` words of the bitmask are naturals; every bit operation performed by
  the code (`|`, `&`, `!` within 64 bits, `<<` with shift `< 64`) agrees with
  the corresponding `Nat` operation on values `< 2^64`, and the one place the
  code can overflow a shift (`buffer >>= trailing_zeros + 1` with amount `64`)
  is modelled explicitly as a panic (`none`).
-/

namespace RenderGroupsSpec

/-- Entity identifiers (`bevy_ecs::Entity`), abstracted as naturals. -/
abbrev Entity := Nat

/-- `DEFAULT_RENDER_LAYER`: the reserved default layer index. -/
def DEFAULT_RENDER_LAYER : Nat := 0

/-- `RenderXXLayersXX::layer_info`: maps a layer to `(buffer_index, bit)` with
`buffer_index = layer / 64` and `bit = 1 << (layer % 64)`. -/
def layer_info (layer : Nat) : Nat × Nat := (layer / 64, 1 <<< (layer % 64))

/-- `RenderXXLayersXX`: a growable bitmask stored as a vector of 64-bit words
(`SmallVec<[u64; 1]>`).  Derived `PartialEq` compares the word vectors
structurally (length included), which `DecidableEq` mirrors here. -/
structure RenderXXLayersXX where
  layers : List Nat
deriving DecidableEq

/-- `RenderXXLayersXX::empty`. -/
def RenderXXLayersXX.empty : RenderXXLayersXX := ⟨[]⟩

/-- `RenderXXLayersXX::extend_buffer`: `resize(max(len, other_len), 0)`,
i.e. append zero words up to the new size (the new size is never smaller
than the current length). -/
def RenderXXLayersXX.extend_buffer (s : RenderXXLayersXX) (other_len : Nat) :
    RenderXXLayersXX :=
  ⟨s.layers ++ List.replicate (max s.layers.length other_len - s.layers.length) 0⟩

/-- `RenderXXLayersXX::add`: grow the buffer to hold the layer's word, then OR
the layer's bit into that word. -/
def RenderXXLayersXX.add (s : RenderXXLayersXX) (layer : Nat) : RenderXXLayersXX :=
  let bi := (layer_info layer).1
  let bit := (layer_info layer).2
  let s' := s.extend_buffer (bi + 1)
  ⟨s'.layers.set bi (s'.layers.getD bi 0 ||| bit)⟩

/-- `RenderXXLayersXX::remove`: no-op when the layer's word is beyond the
buffer, otherwise AND the word with the complement (within 64 bits) of the
layer's bit.  Never shrinks the buffer. -/
def RenderXXLayersXX.remove (s : RenderXXLayersXX) (layer : Nat) : RenderXXLayersXX :=
  let bi := (layer_info layer).1
  let bit := (layer_info layer).2
  if bi ≥ s.layers.length then s
  else ⟨s.layers.set bi (s.layers.getD bi 0 &&& (0xFFFFFFFFFFFFFFFF ^^^ bit))⟩

/-- `RenderXXLayersXX::clear`: `self.layers.clear()` (capacity is not part of
the logical state). -/
def RenderXXLayersXX.clear (_s : RenderXXLayersXX) : RenderXXLayersXX := ⟨[]⟩

/-- `RenderXXLayersXX::set_from`: replace content with a copy of `other`'s
words, length included. -/
def RenderXXLayersXX.set_from (_s other : RenderXXLayersXX) : RenderXXLayersXX :=
  ⟨other.layers⟩

/-- The word-wise OR loop of `RenderXXLayersXX::merge`:
`for (s, o) in self.iter_mut().zip(other.iter()) { *s |= *o }`.
Pairs words by position up to the shorter list and leaves the rest of the
first list unchanged. -/
def orWords : List Nat → List Nat → List Nat
  | xs, [] => xs
  | [], _ :: _ => []
  | x :: xs, y :: ys => (x ||| y) :: orWords xs ys

/-- `RenderXXLayersXX::merge`: extend the buffer to at least `other`'s length,
then OR in `other`'s words. -/
def RenderXXLayersXX.merge (s other : RenderXXLayersXX) : RenderXXLayersXX :=
  ⟨orWords (s.extend_buffer other.layers.length).layers other.layers⟩

/-- `RenderXXLayersXX::contains`: `false` when the layer's word is beyond the
buffer, otherwise test the layer's bit. -/
def RenderXXLayersXX.contains (s : RenderXXLayersXX) (layer : Nat) : Bool :=
  let bi := (layer_info layer).1
  let bit := (layer_info layer).2
  if bi ≥ s.layers.length then false
  else decide (s.layers.getD bi 0 &&& bit ≠ 0)

/-- The loop of `RenderXXLayersXX::intersects`: walk zipped word pairs and
return `true` at the first pair with a nonzero AND. -/
def intersectsWords : List Nat → List Nat → Bool
  | x :: xs, y :: ys => if x &&& y ≠ 0 then true else intersectsWords xs ys
  | _, _ => false

/-- `RenderXXLayersXX::intersects`. -/
def RenderXXLayersXX.intersects (s other : RenderXXLayersXX) : Bool :=
  intersectsWords s.layers other.layers

/-- `FromIterator for RenderXXLayersXX` / `RenderXXLayersXX::from_layers`:
fold `add` over the input starting from the empty set. -/
def RenderXXLayersXX.from_layers (layers : List Nat) : RenderXXLayersXX :=
  layers.foldl (fun mask g => mask.add g) RenderXXLayersXX.empty

/-- `From<RenderLayer> for RenderXXLayersXX`: empty set plus one `add`. -/
def RenderXXLayersXX.fromLayer (layer : Nat) : RenderXXLayersXX :=
  RenderXXLayersXX.empty.add layer

/-- `Default for RenderXXLayersXX`: `Self::from(DEFAULT_RENDER_LAYER)`. -/
def RenderXXLayersXX.default : RenderXXLayersXX :=
  RenderXXLayersXX.fromLayer DEFAULT_RENDER_LAYER

/-- `u64::trailing_zeros` for values below `2 ^ 64`, by 64 rounds of parity
testing. -/
def ctzAux : Nat → Nat → Nat
  | 0, _ => 0
  | fuel + 1, b => if b % 2 = 1 then 0 else ctzAux fuel (b / 2) + 1

/-- `u64::trailing_zeros` (the code only calls it on nonzero words). -/
def trailing_zeros (b : Nat) : Nat := ctzAux 64 b

/-- `RenderXXLayersXX::iter_layers`, with explicit fuel: repeatedly find the
lowest set bit, shift it (and everything below it) away, and yield its
position counted from the start of the word.  `none` models a panic: the code
computes `next = trailing_zeros + 1` and runs `buffer >>= next`, which is a
shift-overflow when `next = 64` (bit 63 set as the lowest remaining bit) —
Rust panics in debug builds and wraps the shift amount (looping forever) in
release builds.  Fuel exhaustion is also `none`. -/
def iterLayersAux : Nat → Nat → Nat → Option (List Nat)
  | 0, _, _ => none
  | fuel + 1, buffer, layer =>
    if buffer = 0 then some []
    else
      let next := trailing_zeros buffer + 1
      if 64 ≤ next then none
      else (iterLayersAux fuel (buffer >>> next) (layer + next)).map
        (fun rest => (layer + next - 1) :: rest)

/-- `RenderXXLayersXX::iter_layers` on one word.  65 units of fuel suffice for
every terminating run on a `u64` word (each step strictly shrinks the word). -/
def iter_layers (buffer : Nat) : Option (List Nat) :=
  iterLayersAux 65 buffer 0

/-- The flattening in `RenderXXLayersXX::iter`:
`self.layers.iter().copied().map(Self::iter_layers).flatten()`.
Note the code passes each word to `iter_layers` with no per-word base offset. -/
def iterWords : List Nat → Option (List Nat)
  | [] => some []
  | w :: ws =>
    match iter_layers w, iterWords ws with
    | some l, some r => some (l ++ r)
    | _, _ => none

/-- `RenderXXLayersXX::iter`, collected to a list (`none` = the underlying
iterator panics or never terminates). -/
def RenderXXLayersXX.iter (s : RenderXXLayersXX) : Option (List Nat) :=
  iterWords s.layers

/-- `RenderGroups`: a layer set plus an optional camera affiliation. -/
structure RenderGroups where
  layers : RenderXXLayersXX
  camera : Option Entity
deriving DecidableEq

/-- `RenderGroups::empty`. -/
def RenderGroups.empty : RenderGroups := ⟨RenderXXLayersXX.empty, none⟩

/-- `RenderGroups::new_with_camera`. -/
def RenderGroups.new_with_camera (camera : Entity) : RenderGroups :=
  ⟨RenderXXLayersXX.empty, some camera⟩

/-- `RenderGroups::default_with_camera`. -/
def RenderGroups.default_with_camera (camera : Entity) : RenderGroups :=
  ⟨RenderXXLayersXX.default, some camera⟩

/-- `RenderGroups::add`: delegates to the layer set, camera untouched. -/
def RenderGroups.add (g : RenderGroups) (layer : Nat) : RenderGroups :=
  ⟨g.layers.add layer, g.camera⟩

/-- `RenderGroups::remove`: delegates to the layer set, camera untouched. -/
def RenderGroups.remove (g : RenderGroups) (layer : Nat) : RenderGroups :=
  ⟨g.layers.remove layer, g.camera⟩

/-- `RenderGroups::clear`: clears the layers and unsets the camera. -/
def RenderGroups.clear (g : RenderGroups) : RenderGroups :=
  ⟨g.layers.clear, none⟩

/-- `RenderGroups::merge`: merge the layer sets;
`self.camera = self.camera.or(other.camera)`. -/
def RenderGroups.merge (g other : RenderGroups) : RenderGroups :=
  ⟨g.layers.merge other.layers,
   match g.camera with
   | some c => some c
   | none => other.camera⟩

/-- `RenderGroups::set_from`: overwrite both fields from `other`. -/
def RenderGroups.set_from (g other : RenderGroups) : RenderGroups :=
  ⟨g.layers.set_from other.layers, other.camera⟩

/-- `RenderGroups::set_camera`: `self.camera.replace(camera)`; returns the
previous camera alongside the new state. -/
def RenderGroups.set_camera (g : RenderGroups) (camera : Entity) :
    Option Entity × RenderGroups :=
  (g.camera, ⟨g.layers, some camera⟩)

/-- `RenderGroups::remove_camera`: `self.camera.take()`; returns the removed
camera alongside the new state. -/
def RenderGroups.remove_camera (g : RenderGroups) : Option Entity × RenderGroups :=
  (g.camera, ⟨g.layers, none⟩)

/-- `RenderGroups::contains_layer`. -/
def RenderGroups.contains_layer (g : RenderGroups) (layer : Nat) : Bool :=
  g.layers.contains layer

/-- `RenderGroups::intersects`: `true` when both cameras are present and
equal, otherwise the layer sets' intersection test. -/
def RenderGroups.intersects (g other : RenderGroups) : Bool :=
  match g.camera, other.camera with
  | some a, some b =>
    if a = b then true else RenderXXLayersXX.intersects g.layers other.layers
  | _, _ => RenderXXLayersXX.intersects g.layers other.layers

/-- `Default for RenderGroups`: `Self::from(DEFAULT_RENDER_LAYER)` — the
default layer set and no camera. -/
def RenderGroups.default : RenderGroups := ⟨RenderXXLayersXX.default, none⟩

/-- Modelled from the spec: `ExtractedRenderGroups` (defined outside this
file's sources) is the extraction step's read-only snapshot of a
`RenderGroups`, dereferencing to the wrapped value. -/
structure ExtractedRenderGroups where
  groups : RenderGroups

/-- `RenderGroups::intersects_extracted`: when the snapshot is absent, test
against `RenderGroups::default()`. -/
def RenderGroups.intersects_extracted (g : RenderGroups)
    (extracted : Option ExtractedRenderGroups) : Bool :=
  let render_groups :=
    match extracted with
    | some i => i.groups
    | none => RenderGroups.default
  g.intersects render_groups

/-- `CameraView`: the layer set a camera can see. -/
structure CameraView where
  layers : RenderXXLayersXX
deriving DecidableEq

/-- `CameraView::empty`. -/
def CameraView.empty : CameraView := ⟨RenderXXLayersXX.empty⟩

/-- `CameraView::add`. -/
def CameraView.add (v : CameraView) (layer : Nat) : CameraView :=
  ⟨v.layers.add layer⟩

/-- `CameraView::remove`. -/
def CameraView.remove (v : CameraView) (layer : Nat) : CameraView :=
  ⟨v.layers.remove layer⟩

/-- `CameraView::contains_layer`. -/
def CameraView.contains_layer (v : CameraView) (layer : Nat) : Bool :=
  v.layers.contains layer

/-- `CameraView::entity_is_visible`: `true` immediately when
`Some(camera) == groups.camera`, otherwise the layer intersection test. -/
def CameraView.entity_is_visible (v : CameraView) (camera : Entity)
    (groups : RenderGroups) : Bool :=
  if some camera = groups.camera then true
  else v.layers.intersects groups.layers

/-- `CameraView::get_groups`: the view's layers as a `RenderGroups`
affiliated with `camera`. -/
def CameraView.get_groups (v : CameraView) (camera : Entity) : RenderGroups :=
  ⟨v.layers, some camera⟩

/-- `Default for CameraView`. -/
def CameraView.default : CameraView := ⟨RenderXXLayersXX.default⟩

/-- Two layer sets with the same observable membership on every layer. -/
def sameBitContent (a b : RenderXXLayersXX) : Prop :=
  ∀ x : Nat, a.contains x = b.contains x

/-- The set obtained by adding layer 64 and then removing it: the backing
words are `[0, 0]` (the high word was cleared but never dropped). -/
def clearedHigh : RenderXXLayersXX := (RenderXXLayersXX.from_layers [64]).remove 64

/-! ### Helper lemmas -/

lemma getD_replicate_zero (k i : Nat) : (List.replicate k (0 : Nat)).getD i 0 = 0 := by
  induction k generalizing i with
  | zero => rfl
  | succ k ih =>
    cases i with
    | zero => rfl
    | succ i => simp [List.replicate_succ, ih i]

lemma getD_append_replicate_zero (l : List Nat) (k i : Nat) :
    (l ++ List.replicate k 0).getD i 0 = l.getD i 0 := by
  induction l generalizing i with
  | nil => simp [getD_replicate_zero k i]
  | cons x xs ih =>
    cases i with
    | zero => rfl
    | succ i => simpa using ih i

lemma extend_buffer_getD (s : RenderXXLayersXX) (n i : Nat) :
    (s.extend_buffer n).layers.getD i 0 = s.layers.getD i 0 :=
  getD_append_replicate_zero s.layers _ i

lemma extend_buffer_length (s : RenderXXLayersXX) (n : Nat) :
    (s.extend_buffer n).layers.length = max s.layers.length n := by
  simp only [RenderXXLayersXX.extend_buffer, List.length_append, List.length_replicate]
  omega

lemma orWords_getD (xs : List Nat) : ∀ (ys : List Nat), ys.length ≤ xs.length →
    ∀ i : Nat, (orWords xs ys).getD i 0 = xs.getD i 0 ||| ys.getD i 0 := by
  induction xs with
  | nil =>
    intro ys h i
    have hys : ys = [] := List.eq_nil_of_length_eq_zero (Nat.le_zero.mp (by simpa using h))
    subst hys
    simp [orWords]
  | cons x xs ih =>
    intro ys h i
    cases ys with
    | nil => simp [orWords]
    | cons y ys =>
      cases i with
      | zero => rfl
      | succ i => simpa [orWords] using ih ys (by simpa using h) i

lemma merge_getD (s other : RenderXXLayersXX) (i : Nat) :
    (s.merge other).layers.getD i 0 = s.layers.getD i 0 ||| other.layers.getD i 0 := by
  have hlen : other.layers.length ≤ (s.extend_buffer other.layers.length).layers.length := by
    rw [extend_buffer_length]
    omega
  show (orWords (s.extend_buffer other.layers.length).layers other.layers).getD i 0 = _
  rw [orWords_getD _ _ hlen i, extend_buffer_getD]

lemma and_shift_ne_zero (w k : Nat) : (w &&& (1 <<< k) ≠ 0) ↔ Nat.testBit w k = true := by
  rw [Nat.shiftLeft_eq, one_mul, Nat.and_two_pow]
  cases h : Nat.testBit w k <;> simp [h, Nat.pow_eq_zero]

lemma contains_iff_testBit (s : RenderXXLayersXX) (x : Nat) :
    s.contains x = true ↔ Nat.testBit (s.layers.getD (x / 64) 0) (x % 64) = true := by
  unfold RenderXXLayersXX.contains layer_info
  by_cases h : x / 64 ≥ s.layers.length
  · rw [List.getD_eq_default _ _ h]
    simp [h, Nat.zero_testBit]
  · simp only [h, if_false, decide_eq_true_eq]
    exact and_shift_ne_zero _ _

lemma merge_contains (s other : RenderXXLayersXX) (x : Nat) :
    (s.merge other).contains x = (s.contains x || other.contains x) := by
  rw [Bool.eq_iff_iff, contains_iff_testBit, merge_getD, Nat.testBit_lor,
    Bool.or_eq_true, Bool.or_eq_true, contains_iff_testBit, contains_iff_testBit]

lemma testBit_one_iff (k : Nat) : Nat.testBit 1 k = decide (k = 0) := by
  cases k with
  | zero => rfl
  | succ k => simp [Nat.testBit_succ, Nat.zero_testBit]

lemma default_contains (x : Nat) :
    RenderXXLayersXX.default.contains x = decide (x = 0) := by
  rw [Bool.eq_iff_iff, contains_iff_testBit]
  have hd : RenderXXLayersXX.default.layers = [1] := rfl
  rw [hd]
  by_cases h : x / 64 = 0
  · rw [h]
    simp only [List.getD_cons_zero, testBit_one_iff, decide_eq_true_eq]
    omega
  · have h0 : List.getD [1] (x / 64) 0 = 0 := by
      rw [List.getD_eq_default]
      simpa using Nat.one_le_iff_ne_zero.mpr h
    rw [h0]
    simp only [Nat.zero_testBit, decide_eq_true_eq]
    constructor
    · intro hh
      exact absurd hh (by simp)
    · intro hh
      omega

lemma intersectsWords_comm (xs : List Nat) : ∀ ys : List Nat,
    intersectsWords xs ys = intersectsWords ys xs := by
  induction xs with
  | nil => intro ys; cases ys <;> rfl
  | cons x xs ih =>
    intro ys
    cases ys with
    | nil => rfl
    | cons y ys => simp [intersectsWords, Nat.land_comm x y, ih ys]

lemma intersectsWords_iff (xs : List Nat) : ∀ ys : List Nat,
    intersectsWords xs ys = true ↔
      ∃ i, i < min xs.length ys.length ∧ xs.getD i 0 &&& ys.getD i 0 ≠ 0 := by
  induction xs with
  | nil => intro ys; simp [intersectsWords]
  | cons x xs ih =>
    intro ys
    cases ys with
    | nil => simp [intersectsWords]
    | cons y ys =>
      simp only [intersectsWords]
      by_cases h : x &&& y ≠ 0
      · rw [if_pos h]
        simp only [true_iff]
        exact ⟨0, by simp [Nat.succ_min_succ], by simpa using h⟩
      · rw [if_neg h]
        rw [ih ys]
        constructor
        · rintro ⟨i, hi, hne⟩
          exact ⟨i + 1, by simp [Nat.succ_min_succ]; omega, by simpa using hne⟩
        · rintro ⟨i, hi, hne⟩
          cases i with
          | zero => exact absurd (by simpa using hne) h
          | succ i =>
            refine ⟨i, ?_, by simpa using hne⟩
            simp [Nat.succ_min_succ] at hi
            omega

/-! ### Claims -/

/-- C1: `CameraView::entity_is_visible v c g` is `true` iff `g`'s camera
affiliation is `some c` or the view's layer set intersects `g`'s layer set;
when the affiliation is `some c` the result is `true` regardless of layers,
and otherwise the result is exactly the layer-set intersection test. -/
theorem claim1_entity_is_visible (v : CameraView) (c : Entity) (g : RenderGroups) :
    (v.entity_is_visible c g = true ↔
      (g.camera = some c ∨ v.layers.intersects g.layers = true))
    ∧ (g.camera = some c → v.entity_is_visible c g = true)
    ∧ (g.camera ≠ some c → v.entity_is_visible c g = v.layers.intersects g.layers) := by
  by_cases h : g.camera = some c
  · simp [CameraView.entity_is_visible, h]
  · have h' : ¬ (some c = g.camera) := fun hh => h hh.symm
    simp [CameraView.entity_is_visible, h, h']

/-- Witness for C1 at concrete inputs: affiliation match dominates (camera 5),
and a mismatched affiliation (camera 7 vs 5) falls back to layer intersection. -/
theorem claim1_witness :
    (CameraView.empty.entity_is_visible 5 (RenderGroups.new_with_camera 5) = true)
    ∧ (CameraView.empty.entity_is_visible 7 (RenderGroups.new_with_camera 5)
        = CameraView.empty.layers.intersects (RenderGroups.new_with_camera 5).layers) :=
  ⟨(claim1_entity_is_visible CameraView.empty 5 (RenderGroups.new_with_camera 5)).2.1
      (by decide),
   (claim1_entity_is_visible CameraView.empty 7 (RenderGroups.new_with_camera 5)).2.2
      (by decide)⟩

/-- C2 (code bug): the layer iterator is not total.  On a word with bit 63 set
(the set `from_layers [63]`, backing word `2 ^ 63`), the code computes
`next = trailing_zeros + 1 = 64` and executes `buffer >>= 64`, a shift
overflow: a panic in debug builds, and a wrapped (no-op) shift in release
builds so the iterator never terminates.  Modelled: the single-word run
returns `none` (panic) and no amount of fuel makes `iterLayersAux` finish. -/
theorem claim2_iter_layer63 :
    (RenderXXLayersXX.from_layers [63]).iter = none
    ∧ ∀ (fuel layer : Nat), iterLayersAux fuel (2 ^ 63) layer = none := by
  refine ⟨by decide, ?_⟩
  intro fuel layer
  cases fuel with
  | zero => rfl
  | succ fuel =>
    have h63 : trailing_zeros (2 ^ 63) = 63 := by decide
    have hne : ¬ (2 : Nat) ^ 63 = 0 := by positivity
    simp only [iterLayersAux, h63, if_neg hne]
    norm_num

/-- C3 (code bug): the round trip fails for `L = [64]`.  `iter` flattens
`iter_layers` over each word without adding the `64 * word_index` base
offset, so collecting the iterator of `from_layers [64]` yields `[0]`
instead of the ascending distinct `[64]`. -/
theorem claim3_round_trip_failure :
    (RenderXXLayersXX.from_layers [64]).iter = some [0] ∧ [0] ≠ [64] := by
  refine ⟨by decide, by decide⟩

/-- C4 counterexample: `empty()` and `from_layers([64]).remove(64)` contain
exactly the same layers (none), yet the derived equality distinguishes them
(backing `[]` vs `[0, 0]`), refuting policy (a); and the `remove` that
produced the second set left a trailing all-zero word, refuting policy (b). -/
theorem claim4_counterexample :
    sameBitContent RenderXXLayersXX.empty clearedHigh
    ∧ RenderXXLayersXX.empty ≠ clearedHigh
    ∧ clearedHigh.layers = [0, 0] := by
  refine ⟨?_, by decide, by decide⟩
  intro x
  have hc : clearedHigh.layers = [0, 0] := by decide
  rw [Bool.eq_iff_iff, contains_iff_testBit, contains_iff_testBit, hc]
  have h0 : (RenderXXLayersXX.empty.layers).getD (x / 64) 0 = 0 := by
    simp [RenderXXLayersXX.empty]
  have h1 : List.getD [0, 0] (x / 64) 0 = 0 := by
    rcases hx : x / 64 with _ | _ | n <;> simp
  rw [h0, h1]

/-- C4 amended: neither stated policy holds.  What the code does hold:
derived equality is structural (so equal values have equal membership on
every layer), and `remove` never changes the backing length, which is how a
trailing all-zero word survives and makes bit-identical sets compare
unequal. -/
theorem claim4_amended (a b : RenderXXLayersXX) (x : Nat) :
    (a = b → a.contains x = b.contains x)
    ∧ (a.remove x).layers.length = a.layers.length := by
  refine ⟨fun h => by rw [h], ?_⟩
  unfold RenderXXLayersXX.remove
  by_cases h : (layer_info x).1 ≥ a.layers.length
  · rw [if_pos h]
  · rw [if_neg h]
    exact List.length_set a.layers _ _

/-- Witness for C4's amended theorem at `a = b = empty`, `x = 0`. -/
theorem claim4_witness :
    (RenderXXLayersXX.empty.contains 0 = RenderXXLayersXX.empty.contains 0)
    ∧ (RenderXXLayersXX.empty.remove 0).layers.length
        = RenderXXLayersXX.empty.layers.length :=
  ⟨(claim4_amended RenderXXLayersXX.empty RenderXXLayersXX.empty 0).1 rfl,
   (claim4_amended RenderXXLayersXX.empty RenderXXLayersXX.empty 0).2⟩

/-- C5: with an absent snapshot, `intersects_extracted` tests against
`RenderGroups::default()`; the default has no camera and contains exactly
layer 0; and the default resolved against an absent snapshot is visible. -/
theorem claim5_extracted_default (g : RenderGroups) :
    g.intersects_extracted none = g.intersects RenderGroups.default
    ∧ RenderGroups.default.camera = none
    ∧ (∀ x : Nat, RenderGroups.default.contains_layer x = decide (x = 0))
    ∧ RenderGroups.default.intersects_extracted none = true := by
  refine ⟨rfl, rfl, ?_, by decide⟩
  intro x
  exact default_contains x

/-- C6: merging `b` into `a` produces a superset of both: any layer contained
in either operand is contained in the merge. -/
theorem claim6_merge_superset (a b : RenderXXLayersXX) (x : Nat)
    (h : a.contains x = true ∨ b.contains x = true) :
    (a.merge b).contains x = true := by
  rw [merge_contains]
  rcases h with h | h <;> simp [h]

/-- Witness for C6: layer 2 of the right operand survives the merge. -/
theorem claim6_witness :
    ((RenderXXLayersXX.from_layers [1]).merge (RenderXXLayersXX.from_layers [2])).contains 2
      = true :=
  claim6_merge_superset _ _ 2 (Or.inr (by decide))

/-- C7: `RenderGroups::merge` unions the layer sets, keeps `self`'s camera
when present, and otherwise adopts `other`'s camera (possibly absent). -/
theorem claim7_render_groups_merge (a b : RenderGroups) (x : Nat) :
    ((a.merge b).contains_layer x = (a.contains_layer x || b.contains_layer x))
    ∧ (∀ c : Entity, a.camera = some c → (a.merge b).camera = some c)
    ∧ (a.camera = none → (a.merge b).camera = b.camera) := by
  refine ⟨merge_contains a.layers b.layers x, ?_, ?_⟩
  · intro c hc
    simp [RenderGroups.merge, hc]
  · intro hc
    simp [RenderGroups.merge, hc]

/-- Witness for C7: a present `self` camera (3) wins over `other`'s (9), and
an absent `self` camera adopts `other`'s. -/
theorem claim7_witness :
    ((RenderGroups.default_with_camera 3).merge (RenderGroups.new_with_camera 9)).camera
      = some 3
    ∧ (RenderGroups.empty.merge (RenderGroups.new_with_camera 9)).camera
        = (RenderGroups.new_with_camera 9).camera :=
  ⟨(claim7_render_groups_merge (RenderGroups.default_with_camera 3)
      (RenderGroups.new_with_camera 9) 0).2.1 3 rfl,
   (claim7_render_groups_merge RenderGroups.empty
      (RenderGroups.new_with_camera 9) 0).2.2 rfl⟩

/-- C8: operations are total over layer indices: when the layer's word index
is at or beyond the backing length, `remove` is a no-op (state, length
included, unchanged) and `contains` is `false`. -/
theorem claim8_total_out_of_range (s : RenderXXLayersXX) (x : Nat)
    (h : s.layers.length ≤ x / 64) :
    s.remove x = s ∧ s.contains x = false := by
  constructor
  · simp [RenderXXLayersXX.remove, layer_info, h]
  · simp [RenderXXLayersXX.contains, layer_info, h]

/-- Witness for C8: a one-word set queried and pruned at layer 64. -/
theorem claim8_witness :
    ((RenderXXLayersXX.from_layers [0]).remove 64 = RenderXXLayersXX.from_layers [0])
    ∧ ((RenderXXLayersXX.from_layers [0]).contains 64 = false) :=
  claim8_total_out_of_range (RenderXXLayersXX.from_layers [0]) 64 (by decide)

/-- C9: `intersects` is symmetric for all backing lengths, and it is `true`
iff some word position below the shorter length has a nonzero bitwise AND of
the corresponding words. -/
theorem claim9_intersects_symm_char (a b : RenderXXLayersXX) :
    a.intersects b = b.intersects a
    ∧ (a.intersects b = true ↔
        ∃ i, i < min a.layers.length b.layers.length
          ∧ a.layers.getD i 0 &&& b.layers.getD i 0 ≠ 0) :=
  ⟨intersectsWords_comm a.layers b.layers, intersectsWords_iff a.layers b.layers⟩

/-- C10: `set_camera` and `remove_camera` leave the layer set unchanged, and
`add`/`remove` of a layer leave the camera affiliation unchanged. -/
theorem claim10_field_independence (g : RenderGroups) (c : Entity) (x : Nat) :
    (g.set_camera c).2.layers = g.layers
    ∧ g.remove_camera.2.layers = g.layers
    ∧ (g.add x).camera = g.camera
    ∧ (g.remove x).camera = g.camera :=
  ⟨rfl, rfl, rfl, rfl⟩

end RenderGroupsSpec
